import Mathlib

/-!
Shallow embedding of the TaskQuest gamified task tracker (a React/TypeScript
single-page app) for verification of its specification.

Modelling conventions:
* JS timestamps (`Date.now()`, parsed ISO strings) are `Int` milliseconds.
* An optional field that the code reads through truthiness / `isNaN` guards is
  an `Option`; `none` stands for absent/null/unparseable values, since the code
  treats all of those identically on every path the claims touch.
* JS numbers that the code defends against `NaN` (the experience running total)
  are `JNum`; plain numeric fields that the claims only exercise with ordinary
  numbers are `Int` or `ℚ`.
* Fractional JS arithmetic (seconds, elapsed days, rates) is exact rational
  arithmetic in `ℚ`. `Math.floor` on an integer-by-integer quotient is `Int`
  division (Euclidean, which is floor division for the positive divisors used).
* `Math.round q` is `⌊q + 1/2⌋` (JS rounds half-up).
-/

namespace TQ

/-- TaskType from types.ts. -/
inductive TaskType where
  | daily
  | quest
  | boss
deriving DecidableEq

/-- Priority from types.ts. -/
inductive Priority where
  | low
  | medium
  | high
deriving DecidableEq

/-- A JS number that may be NaN. Used for `UserStats.currentExp`, the one field
the engine explicitly guards with `isNaN`. -/
inductive JNum where
  | nan
  | num (v : Int)
deriving DecidableEq

/-- JS addition on possibly-NaN numbers: NaN propagates. -/
def jadd : JNum → JNum → JNum
  | .num a, .num b => .num (a + b)
  | _, _ => .nan

/-- Task record from types.ts. Timestamp-valued fields (`reminder`, `deadline`,
`completedAt` ISO strings, `lastUpdated` epoch ms) are modelled by their parsed
millisecond value; `none` is absent or unparseable. `timeSpent` is `none` when
the stored value is non-numeric (absent or NaN). -/
structure Task where
  id : String := ""
  title : String := ""
  description : String := ""
  completed : Bool := false
  exp : Int := 0
  type : TaskType := .quest
  priority : Priority := .medium
  voiceNote : Option String := none
  reminder : Option Int := none
  reminderFired : Bool := false
  timeSpent : Option ℚ := none
  isRunning : Bool := false
  lastUpdated : Option Int := none
  completedAt : Option Int := none
  deleted : Bool := false
  deadline : Option Int := none
  completedOnTime : Option Bool := none
deriving DecidableEq

/-- MonkMode record from types.ts. -/
structure MonkMode where
  isActive : Bool := false
  startDate : Option Int := none
  endDate : Option Int := none
  durationLabel : String := ""
  totalDays : Int := 0
  minSuccessRate : Option Int := none
deriving DecidableEq

/-- UserStats record from types.ts. `currentExp` is a `JNum` because `addExp`
defends it against NaN; the other numeric fields are only ever exercised with
ordinary numbers by the code paths under verification. -/
structure UserStats where
  level : Int := 1
  currentExp : JNum := .num 0
  nextLevelExp : Int := 100
  streak : Int := 0
  className : String := "Rogue"
  displayName : String := ""
  avatar : String := ""
  monkMode : Option MonkMode := none
  unlockedMonkModes : List Int := []
deriving DecidableEq

/-- GuildMember record from types.ts. -/
structure GuildMember where
  id : String := ""
  name : String := ""
  level : Int := 1
  className : String := "Rogue"
  isUser : Bool := false
deriving DecidableEq

/-- Guild record from types.ts. -/
structure Guild where
  id : String := ""
  name : String := ""
  code : String := ""
  members : List GuildMember := []
deriving DecidableEq

/-- JS `Math.round`: floor of q + 1/2 (JS rounds ties toward +∞). -/
def jsRound (q : ℚ) : Int := ⌊q + 1/2⌋

/-! ## Task completion (TaskDashboard.handleCompleteTask) -/

/-- Core state change of `handleCompleteTask` on the completed task, plus the
amount passed to `onAddExp`. Mirrors TaskDashboard lines 49-88: a deadline that
parses and lies strictly before `now` halves the reward (`Math.floor(exp / 2)`,
which is `exp / 2` in Euclidean `Int` division) and marks the completion as not
on time; the stored `exp` is overwritten with the earned amount; completion
stops the timer and stamps `completedAt`. -/
def completionResult (now : Int) (t : Task) : Task × Int :=
  let late : Bool := match t.deadline with
    | some d => decide (d < now)
    | none => false
  let earnedExp : Int := if late then t.exp / 2 else t.exp
  ({ t with
      completed := true
      completedAt := some now
      isRunning := false
      lastUpdated := none
      completedOnTime := some (!late)
      exp := earnedExp },
   earnedExp)

/-! ## Experience engine (useGameEngine.addExp, localStorage variant) -/

/-- The level-up while loop of `addExp`:
while (currentExp >= nextLevelExp) { currentExp -= nextLevelExp; level++;
nextLevelExp = Math.floor(nextLevelExp * 1.5) }.
`Math.floor(n * 1.5)` is `(3 * n) / 2` in Euclidean `Int` division. The JS loop
diverges when `nextLevelExp` is non-positive and not above `currentExp`; the
guard `1 ≤ nextLevelExp` makes the Lean function total and agrees with the JS
loop on every run on which the JS loop terminates after finitely many
iterations starting from a positive requirement. -/
def levelLoop (currentExp level nextLevelExp : Int) : Int × Int × Int :=
  if h : 1 ≤ nextLevelExp ∧ nextLevelExp ≤ currentExp then
    levelLoop (currentExp - nextLevelExp) (level + 1) ((3 * nextLevelExp) / 2)
  else (currentExp, level, nextLevelExp)
termination_by currentExp.toNat
decreasing_by omega

/-- `addExp` from src/hooks/useGameEngine.ts lines 127-140: add the amount to
`currentExp`, reset the SUM to 0 if it is NaN (the check runs after the
addition), then run the level-up loop. -/
def addExp (amount : JNum) (prev : UserStats) : UserStats :=
  let c0 : JNum := jadd prev.currentExp amount
  let c1 : Int := match c0 with
    | .nan => 0
    | .num v => v
  let r := levelLoop c1 prev.level prev.nextLevelExp
  { prev with currentExp := .num r.1, level := r.2.1, nextLevelExp := r.2.2 }

/-- A finite sequence of `addExp` calls applied in order. -/
def applyExpSeq : List JNum → UserStats → UserStats
  | [], s => s
  | a :: rest, s => applyExpSeq rest (addExp a s)

/-- The claimed experience invariant, as a decidable check:
`currentExp` is an actual number in `[0, nextLevelExp)`. -/
def inRangeB (s : UserStats) : Bool :=
  match s.currentExp with
  | .nan => false
  | .num v => decide (0 ≤ v) && decide (v < s.nextLevelExp)

/-- An amount that is a nonnegative number or NaN. -/
def nonNegB : JNum → Bool
  | .nan => true
  | .num v => decide (0 ≤ v)

/-- INITIAL_USER from useGameEngine.ts (the fields the experience engine
touches; level 1, 0/100 exp). -/
def initStats : UserStats := {}

/-- A persisted stats record whose running total has decayed to NaN. -/
def nanStats : UserStats := { currentExp := .nan }

/-! ## Success rate (Profile / MultiplayerHub derived statistics) -/

/-- Successful completions: tasks.filter(t => t.completed).length. -/
def completedCount (ts : List Task) : Nat :=
  (ts.filter fun t => t.completed).length

/-- Abandoned tasks: tasks.filter(t => t.deleted).length. -/
def abandonedCount (ts : List Task) : Nat :=
  (ts.filter fun t => t.deleted).length

/-- On-time filter used by every statistic:
t.completed && t.completedOnTime !== false (an absent flag counts as on time). -/
def onTimeB (t : Task) : Bool :=
  t.completed && t.completedOnTime != some false

/-- On-time completions. -/
def onTimeCount (ts : List Task) : Nat := (ts.filter onTimeB).length

/-- Career success rate, Profile lines 656-664:
totalAttempts > 0 ? Math.round(onTime / totalAttempts * 100) : 100. -/
def successRate (ts : List Task) : Int :=
  let totalAttempts := completedCount ts + abandonedCount ts
  if 0 < totalAttempts then
    jsRound ((onTimeCount ts : ℚ) / (totalAttempts : ℚ) * 100)
  else 100

/-- Spec example: 3 on-time completions, 1 late completion, 1 abandoned task. -/
def exampleFive : List Task :=
  [ { id := "1", title := "a", completed := true, completedOnTime := some true },
    { id := "2", title := "b", completed := true, completedOnTime := some true },
    { id := "3", title := "c", completed := true, completedOnTime := some true },
    { id := "4", title := "d", completed := true, completedOnTime := some false },
    { id := "5", title := "e", deleted := true } ]

/-! ## Startup recovery (usePersistent taskquest_tasks initializer) -/

/-- Per-task startup recovery, useGameEngine.ts lines 47-71. Tasks missing id
or title pass through; a running task with a truthy `lastUpdated` gets the
elapsed seconds `(now - last) / 1000` added to `timeSpent` when the delta is
in (0, 31536000), with `lastUpdated` reset to now (an absent `lastUpdated`
cannot be a truthy non-number here because the model parses it to `Option
Int`, so `last` is always the stored value); any other task with non-numeric
`timeSpent` is normalized to zero. -/
def recoverTask (now : Int) (t : Task) : Task :=
  if t.id = "" ∨ t.title = "" then t
  else
    match t.lastUpdated with
    | some l =>
      if t.isRunning = true ∧ l ≠ 0 then
        let delta : ℚ := ((now - l : Int) : ℚ) / 1000
        let safeDelta : ℚ := if 0 < delta ∧ delta < 31536000 then delta else 0
        let currentSpent : ℚ := t.timeSpent.getD 0
        { t with timeSpent := some (currentSpent + safeDelta), lastUpdated := some now }
      else if t.timeSpent = none then { t with timeSpent := some 0 } else t
    | none =>
      if t.timeSpent = none then { t with timeSpent := some 0 } else t

/-- Startup recovery over the whole persisted list. -/
def recoverTasks (now : Int) (ts : List Task) : List Task :=
  ts.map (recoverTask now)

/-- Modelled from the claim wording, for comparison with `recoverTask`: the
claim treats a delta as zero only when it is negative or STRICTLY more than
one year, so a delta of exactly one year is kept. Identical to `recoverTask`
everywhere else. -/
def recoverTaskClaim (now : Int) (t : Task) : Task :=
  if t.id = "" ∨ t.title = "" then t
  else
    match t.lastUpdated with
    | some l =>
      if t.isRunning = true ∧ l ≠ 0 then
        let delta : ℚ := ((now - l : Int) : ℚ) / 1000
        let safeDelta : ℚ := if delta < 0 ∨ 31536000 < delta then 0 else delta
        let currentSpent : ℚ := t.timeSpent.getD 0
        { t with timeSpent := some (currentSpent + safeDelta), lastUpdated := some now }
      else if t.timeSpent = none then { t with timeSpent := some 0 } else t
    | none =>
      if t.timeSpent = none then { t with timeSpent := some 0 } else t

/-- A running task whose last tick was exactly one year before the load. -/
def boundaryTask : Task :=
  { id := "1", title := "a", isRunning := true, lastUpdated := some 1000,
    timeSpent := some 10 }

/-- A running task for the recovery witness: last tick at 1000 ms, 5 s spent. -/
def rTask : Task :=
  { id := "1", title := "a", isRunning := true, lastUpdated := some 1000,
    timeSpent := some 5 }

/-! ## Monk Mode session statistics and failure effect (Profile) -/

/-- Result of getSessionStats. -/
structure SessionOut where
  total : Nat
  onTime : Nat
  rate : Int
deriving DecidableEq

/-- Membership test for the Monk Mode session, Profile lines 716-721: the task
has a valid completion timestamp strictly after the session start and is
completed or abandoned. -/
def sessionPred (startDate : Int) (t : Task) : Bool :=
  match t.completedAt with
  | none => false
  | some c => (t.completed || t.deleted) && decide (startDate < c)

/-- getSessionStats, Profile lines 710-732. -/
def getSessionStats (mm : Option MonkMode) (ts : List Task) : SessionOut :=
  match mm with
  | none => ⟨0, 0, 100⟩
  | some m =>
    match m.startDate with
    | none => ⟨0, 0, 100⟩
    | some s =>
      let sessionTasks := ts.filter (sessionPred s)
      let total := sessionTasks.length
      if total = 0 then ⟨0, 0, 100⟩
      else
        let onTime := (sessionTasks.filter onTimeB).length
        ⟨total, onTime, jsRound ((onTime : ℚ) / (total : ℚ) * 100)⟩

/-- minRate: stats.monkMode?.minSuccessRate || 50 (JS `||`: a missing or zero
stored rate falls back to 50). -/
def minRateOf (mm : Option MonkMode) : Int :=
  match mm with
  | some m =>
    match m.minSuccessRate with
    | some r => if r = 0 then 50 else r
    | none => 50
  | none => 50

/-- Profile component state relevant to the failure effect. -/
structure ProfileState where
  stats : UserStats
  showFailureDialog : Bool := false
deriving DecidableEq

/-- The monk-mode failure effect, Profile lines 762-772, as a step function run
whenever the task collection changes: while active with a start date and a
nonempty session, a session rate below the minimum deactivates Monk Mode and
surfaces the failure dialog. -/
def monkFailureStep (tasks : List Task) (p : ProfileState) : ProfileState :=
  match p.stats.monkMode with
  | none => p
  | some mm =>
    if mm.isActive = true ∧ mm.startDate ≠ none ∧
        0 < (getSessionStats (some mm) tasks).total then
      if (getSessionStats (some mm) tasks).rate < minRateOf (some mm) then
        { stats := { p.stats with monkMode := some { mm with isActive := false } },
          showFailureDialog := true }
      else p
    else p

/-! ## Monk Mode milestone / completion tick (Profile) -/

/-- Milestone durations in days (MONK_MILESTONES). -/
def MONK_MILESTONES : List Int := [7, 28, 90, 180, 365, 1825]

/-- One forEach body of the milestone effect: push d when the elapsed days
reach it and it is not yet unlocked, recording that an update is needed. -/
def unlockStep (elapsedDays : ℚ) (p : List Int × Bool) (d : Int) : List Int × Bool :=
  if (d : ℚ) ≤ elapsedDays ∧ d ∉ p.1 then (p.1 ++ [d], true) else p

/-- The milestone forEach loop over a list of milestone durations. -/
def unlockAux (elapsedDays : ℚ) : List Int → List Int × Bool → List Int × Bool
  | [], p => p
  | d :: ms, p => unlockAux elapsedDays ms (unlockStep elapsedDays p d)

/-- The monk-mode clock-tick effect, Profile lines 774-804: while active with a
valid start date, compute elapsed days as |now - start| / 86400000, unlock all
reached milestones, and when elapsed days reach totalDays deactivate Monk Mode,
keep the unlocks, and surface the completion alert (the returned Bool). -/
def monkTick (now : Int) (s : UserStats) : UserStats × Bool :=
  match s.monkMode with
  | none => (s, false)
  | some mm =>
    if mm.isActive = true then
      match mm.startDate with
      | none => (s, false)
      | some start =>
        let diffTime : Int := |now - start|
        let elapsedDays : ℚ := (diffTime : ℚ) / 86400000
        let r := unlockAux elapsedDays MONK_MILESTONES (s.unlockedMonkModes, false)
        if (mm.totalDays : ℚ) ≤ elapsedDays then
          ({ s with monkMode := some { mm with isActive := false },
                    unlockedMonkModes := r.1 }, true)
        else if r.2 = true then
          ({ s with unlockedMonkModes := r.1 }, false)
        else (s, false)
    else (s, false)

/-- A 7-day protocol started at epoch 0 with nothing unlocked yet. -/
def mmSeven : MonkMode :=
  { isActive := true, startDate := some 0, endDate := some 604800000,
    durationLabel := "7 Days", totalDays := 7, minSuccessRate := some 50 }

/-- Stats holding the active 7-day protocol. -/
def sevenStats : UserStats := { monkMode := some mmSeven }

/-- Active monk-mode profile state for the failure witness. -/
def pAct : ProfileState := { stats := sevenStats }

/-- A task abandoned 5 ms into the session. -/
def delTaskW : Task := { id := "9", title := "z", deleted := true, completedAt := some 5 }

/-! ## Breach (give-up) two-step confirmation (Profile.handleBreachClick) -/

/-- Profile state relevant to the breach button: the armed flag, the pending
3-second window expiry (the setTimeout), and whether Monk Mode is active. -/
structure BreachState where
  confirmBreach : Bool := false
  armExpiry : Option Int := none
  monkActive : Bool := true
deriving DecidableEq

/-- Firing of the pending 3-second timeout: once its expiry has been reached it
clears the armed flag. The event loop runs it before any later click. -/
def expireIfDue (now : Int) (st : BreachState) : BreachState :=
  match st.armExpiry with
  | some e => if e ≤ now then { st with confirmBreach := false, armExpiry := none } else st
  | none => st

/-- handleBreachClick, Profile lines 821-836, at wall-clock time `now`: any due
timeout has already fired; then an armed click deactivates Monk Mode, an
unarmed click arms and schedules the 3-second expiry (replacing any pending
timeout). -/
def breachClick (now : Int) (st : BreachState) : BreachState :=
  let s := expireIfDue now st
  if s.confirmBreach = true then { s with monkActive := false, confirmBreach := false }
  else { s with confirmBreach := true, armExpiry := some (now + 3000) }

/-- Quiescent breach state with Monk Mode active. -/
def breachSt0 : BreachState := {}

/-! ## Import (MultiplayerHub.handleImport) -/

/-- A parsed save document; `none` marks an absent (or null) top-level field,
which is exactly what the `!data.tasks || !data.user` guard rejects. -/
structure SaveDoc where
  tasks : Option (List Task) := none
  user : Option UserStats := none
  guild : Option Guild := none
deriving DecidableEq

/-- The persisted store: task table, user singleton, optional guild. -/
structure Store where
  tasks : List Task := []
  user : Option UserStats := none
  guild : Option Guild := none
deriving DecidableEq

/-- handleImport, MultiplayerHub lines 411-442: a document missing `tasks` or
`user` throws before any database access and surfaces the error alert (the
returned Bool); a valid document replaces the whole store inside one
transaction after user confirmation. -/
def handleImport (doc : SaveDoc) (confirmed : Bool) (st : Store) : Store × Bool :=
  match doc.tasks, doc.user with
  | some ts, some u =>
    if confirmed = true then ({ tasks := ts, user := some u, guild := doc.guild }, false)
    else (st, false)
  | _, _ => (st, true)

/-- A save document with user data but no `tasks` field. -/
def noTasksDoc : SaveDoc := { user := some initStats }

/-- A nonempty store for the import witness. -/
def someStore : Store := { tasks := exampleFive, user := some initStats, guild := some {} }

/-! ## Abandon / soft delete (TaskDashboard.confirmDelete) -/

/-- Per-task update of `confirmDelete`, TaskDashboard lines 105-115: the target
is marked deleted, stamped with the deletion time as `completedAt`, and its
timer is stopped; everything else is spread through unchanged. -/
def delMark (now : Int) (target : String) (t : Task) : Task :=
  if t.id = target then
    { t with deleted := true, completedAt := some now, isRunning := false,
             lastUpdated := none }
  else t

/-- confirmDelete over the collection: a map, so no task is ever removed. -/
def confirmDelete (now : Int) (target : String) (ts : List Task) : List Task :=
  ts.map (delMark now target)

/-- Daily-statistics bucket test, Profile lines 744-749: a valid `completedAt`
within [dayStart, dayEnd]. -/
def dayPred (dayStart dayEnd : Int) (t : Task) : Bool :=
  match t.completedAt with
  | none => false
  | some c => decide (dayStart ≤ c) && decide (c ≤ dayEnd)

/-- Concrete tasks for the abandon witness. -/
def taskX : Task := { id := "x", title := "tx", exp := 25, timeSpent := some 3 }

/-- Second concrete task, not targeted by the abandon witness. -/
def taskY : Task := { id := "y", title := "ty", exp := 50 }

/-- A high-reward task whose deadline (epoch 0) is long past at completion. -/
def lateTask100 : Task := { id := "7", title := "big", exp := 100, deadline := some 0 }

/-! ## Lemmas about the level-up loop -/

/-- One unfolding of the level-up loop while the threshold is reached. -/
theorem levelLoop_step (c l n : Int) (hn : 1 ≤ n) (hc : n ≤ c) :
    levelLoop c l n = levelLoop (c - n) (l + 1) ((3 * n) / 2) := by
  rw [levelLoop, dif_pos ⟨hn, hc⟩]

/-- The loop stops exactly when `currentExp` drops below the requirement, and
starting from a nonnegative total and a positive requirement it lands back in
`[0, nextLevelExp)` without ever decreasing the level. -/
theorem levelLoop_inv (c l n : Int) :
    0 ≤ c → 1 ≤ n →
    0 ≤ (levelLoop c l n).1 ∧ (levelLoop c l n).1 < (levelLoop c l n).2.2 ∧
    l ≤ (levelLoop c l n).2.1 ∧ 1 ≤ (levelLoop c l n).2.2 := by
  induction c, l, n using levelLoop.induct with
  | case1 c l n h ih =>
    intro hc hn
    rw [levelLoop, dif_pos h]
    have h1 : (0:Int) ≤ c - n := by omega
    have h2 : (1:Int) ≤ (3 * n) / 2 := by omega
    have h3 := ih h1 h2
    exact ⟨h3.1, h3.2.1, by omega, h3.2.2.2⟩
  | case2 c l n h =>
    intro hc hn
    rw [levelLoop, dif_neg h]
    refine ⟨hc, ?_, le_refl l, hn⟩
    show c < n
    omega

/-- A single `addExp` call with a nonnegative (or NaN) amount preserves the
range invariant and never lowers the level. -/
theorem addExp_preserves (s : UserStats) (a : JNum)
    (hs : inRangeB s = true) (ha : nonNegB a = true) :
    inRangeB (addExp a s) = true ∧ s.level ≤ (addExp a s).level := by
  cases hce : s.currentExp with
  | nan => simp [inRangeB, hce] at hs
  | num v =>
    simp only [inRangeB, hce, Bool.and_eq_true, decide_eq_true_eq] at hs
    have hn : 1 ≤ s.nextLevelExp := by omega
    have key : ∀ c1 : Int, 0 ≤ c1 →
        inRangeB { s with
          currentExp := JNum.num (levelLoop c1 s.level s.nextLevelExp).1,
          level := (levelLoop c1 s.level s.nextLevelExp).2.1,
          nextLevelExp := (levelLoop c1 s.level s.nextLevelExp).2.2 } = true ∧
        s.level ≤ (levelLoop c1 s.level s.nextLevelExp).2.1 := by
      intro c1 hc1
      have h := levelLoop_inv c1 s.level s.nextLevelExp hc1 hn
      refine ⟨?_, h.2.2.1⟩
      simp only [inRangeB, Bool.and_eq_true, decide_eq_true_eq]
      exact ⟨h.1, h.2.1⟩
    cases a with
    | nan =>
      have := key 0 le_rfl
      simpa [addExp, jadd, hce] using this
    | num w =>
      simp only [nonNegB, decide_eq_true_eq] at ha
      have := key (v + w) (by omega)
      simpa [addExp, jadd, hce] using this

/-- C2 (amended): for every starting state with `currentExp` in
`[0, nextLevelExp)` and every finite sequence of `addExp` calls with
nonnegative (or NaN) amounts, the running total stays in `[0, nextLevelExp)`
and the level never decreases; moreover each level-up iteration subtracts
`nextLevelExp` from `currentExp`, increments the level, and sets
`nextLevelExp` to `floor(nextLevelExp * 1.5)` while the total still reaches
the requirement. -/
theorem c2_exp_invariant (amounts : List JNum) (s : UserStats)
    (hs : inRangeB s = true) (ha : ∀ a ∈ amounts, nonNegB a = true) :
    inRangeB (applyExpSeq amounts s) = true ∧
    s.level ≤ (applyExpSeq amounts s).level ∧
    (∀ c l n : Int, 1 ≤ n → n ≤ c →
      levelLoop c l n = levelLoop (c - n) (l + 1) ((3 * n) / 2)) := by
  refine ⟨?_, ?_, fun c l n hn hc => levelLoop_step c l n hn hc⟩ <;>
  · induction amounts generalizing s with
    | nil => first | exact hs | exact le_refl s.level
    | cons a rest ih =>
      have h1 := addExp_preserves s a hs (ha a (List.mem_cons_self a rest))
      have h2 := ih (addExp a s) h1.1 (fun b hb => ha b (List.mem_cons_of_mem a hb))
      simp only [applyExpSeq]
      first
      | exact h2
      | exact le_trans h1.2 h2

/-- Witness for C2: two pending quest rewards from the initial character stay
inside the invariant and can only raise the level. -/
theorem c2_exp_invariant_witness :
    inRangeB (applyExpSeq [JNum.num 150, JNum.num 25] initStats) = true ∧
    initStats.level ≤ (applyExpSeq [JNum.num 150, JNum.num 25] initStats).level :=
  ⟨(c2_exp_invariant [JNum.num 150, JNum.num 25] initStats (by decide)
      (by intro a ha; fin_cases ha <;> decide)).1,
   (c2_exp_invariant [JNum.num 150, JNum.num 25] initStats (by decide)
      (by intro a ha; fin_cases ha <;> decide)).2.1⟩

/-- C2 fails for arbitrary (negative) amounts: a single `addExp(-5)` from the
initial 0/100 state drives `currentExp` to -5, outside `[0, nextLevelExp)`. -/
theorem c2_negative_amount_cex :
    inRangeB initStats = true ∧
    (addExp (JNum.num (-5)) initStats).currentExp = JNum.num (-5) ∧
    inRangeB (addExp (JNum.num (-5)) initStats) = false := by
  have hloop : levelLoop (-5) 1 100 = (-5, 1, 100) := by
    rw [levelLoop]
    norm_num
  refine ⟨by decide, ?_, ?_⟩ <;>
    simp [addExp, jadd, initStats, inRangeB, hloop]

/-- C3 (amended): a NaN running total is reset to zero AFTER the addition, so
the call behaves as if both the stored total and the incoming amount were zero:
the amount is discarded, then the usual normalization runs. -/
theorem c3_nan_reset (s : UserStats) (amount : JNum) (h : s.currentExp = JNum.nan) :
    addExp amount s = addExp (JNum.num 0) { s with currentExp := JNum.num 0 } := by
  cases amount <;> simp [addExp, jadd, h]

/-- Witness for C3 (amended) at a concrete NaN state and amount 7. -/
theorem c3_nan_reset_witness :
    addExp (JNum.num 7) nanStats =
      addExp (JNum.num 0) { nanStats with currentExp := JNum.num 0 } :=
  c3_nan_reset nanStats (JNum.num 7) rfl

/-- C3 as stated is false: on a NaN total, `addExp(50)` yields `currentExp = 0`
rather than crediting the 50 that "as if currentExp had been 0" would give. -/
theorem c3_nan_swallows_cex :
    (addExp (JNum.num 50) nanStats).currentExp = JNum.num 0 ∧
    (addExp (JNum.num 50) { nanStats with currentExp := JNum.num 0 }).currentExp =
      JNum.num 50 ∧
    JNum.num 0 ≠ JNum.num 50 := by
  have hloop0 : levelLoop 0 1 100 = (0, 1, 100) := by
    rw [levelLoop]
    norm_num
  have hloop50 : levelLoop 50 1 100 = (50, 1, 100) := by
    rw [levelLoop]
    norm_num
  refine ⟨?_, ?_, by decide⟩ <;>
    simp [addExp, jadd, nanStats, hloop0, hloop50]

/-! ## C1: completion penalty -/

/-- C1: completing a task awards the halved reward and `completedOnTime =
false` when the deadline lies strictly in the past, awards the full reward and
`completedOnTime = true` when there is no deadline or the completion is
strictly before it, and in both cases overwrites the stored `exp` with the
amount actually awarded; a reward of 100 completed late stores 50. -/
theorem c1_completion_penalty (now : Int) (t : Task) :
    (completionResult now t).1.exp = (completionResult now t).2 ∧
    (∀ d, t.deadline = some d → d < now →
      (completionResult now t).2 = t.exp / 2 ∧
      (completionResult now t).1.completedOnTime = some false) ∧
    (t.deadline = none ∨ (∃ d, t.deadline = some d ∧ now < d) →
      (completionResult now t).2 = t.exp ∧
      (completionResult now t).1.completedOnTime = some true) ∧
    (t.exp = 100 → ∀ d, t.deadline = some d → d < now →
      (completionResult now t).1.exp = 50) := by
  refine ⟨rfl, ?_, ?_, ?_⟩
  · intro d hd hlt
    simp [completionResult, hd, hlt]
  · rintro (hd | ⟨d, hd, hgt⟩)
    · simp [completionResult, hd]
    · have : ¬ d < now := by omega
      simp [completionResult, hd, this]
  · intro hexp d hd hlt
    simp [completionResult, hd, hlt, hexp]

/-- Witness for C1: reward 100 with deadline at epoch 0, completed at time 10:
stored exp becomes 50 and the completion is marked not on time. -/
theorem c1_completion_penalty_witness :
    (completionResult 10 lateTask100).1.exp = 50 ∧
    (completionResult 10 lateTask100).1.completedOnTime = some false :=
  ⟨(c1_completion_penalty 10 lateTask100).2.2.2 rfl 0 rfl (by norm_num),
   ((c1_completion_penalty 10 lateTask100).2.1 0 rfl (by norm_num)).2⟩

/-! ## C4: success rate -/

/-- C4: the derived success rate is the rounded percentage of on-time
completions among completions plus abandonments, is 100 when that denominator
is zero, and evaluates to 60 on 3 on-time completions, 1 late completion and 1
abandoned task. -/
theorem c4_success_rate (ts : List Task) :
    (completedCount ts + abandonedCount ts = 0 → successRate ts = 100) ∧
    (0 < completedCount ts + abandonedCount ts →
      successRate ts =
        jsRound ((onTimeCount ts : ℚ) /
          ((completedCount ts + abandonedCount ts : Nat) : ℚ) * 100)) ∧
    successRate exampleFive = 60 := by
  refine ⟨?_, ?_, ?_⟩
  · intro h
    simp [successRate, h]
  · intro h
    simp only [successRate]
    rw [if_pos h]
  · have h1 : completedCount exampleFive = 4 := by decide
    have h2 : abandonedCount exampleFive = 1 := by decide
    have h3 : onTimeCount exampleFive = 3 := by decide
    rw [successRate]
    simp only [h1, h2, h3]
    norm_num [jsRound]

/-- Witness for C4: the empty history has rate 100, and the spec's five-task
example has rate 60. -/
theorem c4_success_rate_witness :
    successRate ([] : List Task) = 100 ∧ successRate exampleFive = 60 :=
  ⟨(c4_success_rate []).1 rfl, (c4_success_rate exampleFive).2.2⟩

/-! ## C5: startup recovery -/

/-- C5 (amended): on load a task missing id or title passes through
unmodified; a running task with a (truthy) last tick gets the elapsed seconds
added to its time spent, with a delta that is negative or at least one year
(31536000 s) treated as zero, and its last tick reset to now; any other task
with a non-numeric time spent is normalized to zero. -/
theorem c5_startup_recovery (now : Int) (t : Task) :
    (t.id = "" ∨ t.title = "" → recoverTask now t = t) ∧
    (t.id ≠ "" → t.title ≠ "" → t.isRunning = true →
      ∀ l, t.lastUpdated = some l → l ≠ 0 →
      recoverTask now t =
        { t with
            timeSpent := some (t.timeSpent.getD 0 +
              (if ((now - l : Int) : ℚ) / 1000 < 0 ∨
                  (31536000 : ℚ) ≤ ((now - l : Int) : ℚ) / 1000
               then 0 else ((now - l : Int) : ℚ) / 1000)),
            lastUpdated := some now }) ∧
    (t.id ≠ "" → t.title ≠ "" →
      ¬(t.isRunning = true ∧ ∃ l, t.lastUpdated = some l ∧ l ≠ 0) →
      t.timeSpent = none → recoverTask now t = { t with timeSpent := some 0 }) := by
  refine ⟨?_, ?_, ?_⟩
  · intro h
    simp [recoverTask, h]
  · intro hid htitle hrun l hl hl0
    have hcl : ((if 0 < ((now - l : Int) : ℚ) / 1000 ∧
          ((now - l : Int) : ℚ) / 1000 < 31536000
        then ((now - l : Int) : ℚ) / 1000 else 0) : ℚ) =
        (if ((now - l : Int) : ℚ) / 1000 < 0 ∨
            (31536000 : ℚ) ≤ ((now - l : Int) : ℚ) / 1000
         then 0 else ((now - l : Int) : ℚ) / 1000) := by
      split_ifs with h1 h2 h2
      · exfalso
        rcases h2 with h2 | h2 <;> linarith [h1.1, h1.2]
      · rfl
      · rfl
      · push_neg at h1 h2
        have hle : ((now - l : Int) : ℚ) / 1000 ≤ 0 := by
          by_contra hc
          push_neg at hc
          have := h1 hc
          linarith [h2.2]
        linarith [h2.1]
    rw [recoverTask, if_neg (by tauto), hl]
    simp only [if_pos (show t.isRunning = true ∧ l ≠ 0 from ⟨hrun, hl0⟩), hcl]
  · intro hid htitle hnot hts
    cases hl : t.lastUpdated with
    | none => simp [recoverTask, hl, hts, hid, htitle]
    | some l =>
      have hng : ¬(t.isRunning = true ∧ l ≠ 0) := fun h => hnot ⟨h.1, l, hl, h.2⟩
      simp [recoverTask, hl, hts, hid, htitle, hng]

/-- Witness for C5 (amended): a running task with 5 s spent and last tick at
1000 ms, loaded at 3000 ms, ends with 7 s spent and last tick 3000. -/
theorem c5_startup_recovery_witness :
    recoverTask 3000 rTask = { rTask with timeSpent := some 7, lastUpdated := some 3000 } := by
  have h := (c5_startup_recovery 3000 rTask).2.1 (by decide) (by decide) rfl 1000 rfl
    (by norm_num)
  rw [h]
  norm_num [rTask]

/-- C5 as stated is false at the one-year boundary: a delta of exactly
31536000 s is zeroed by the code but kept by the claim's "strictly more than
one year" cutoff. -/
theorem c5_one_year_boundary_cex :
    (recoverTask 31536001000 boundaryTask).timeSpent = some (10 : ℚ) ∧
    (recoverTaskClaim 31536001000 boundaryTask).timeSpent =
      some ((10 : ℚ) + 31536000) ∧
    some ((10 : ℚ) + 31536000) ≠ (some (10 : ℚ) : Option ℚ) := by
  refine ⟨?_, ?_, by norm_num⟩ <;>
  · norm_num [recoverTask, recoverTaskClaim, boundaryTask]
    rw [if_neg (by decide)]

/-! ## C6: monk-mode failure effect -/

/-- C6: while Monk Mode is active, a task-collection change whose session has
at least one task and a recomputed rate below the minimum deactivates Monk
Mode and surfaces the failure dialog; once inactive, the effect is a no-op (so
the failure cannot re-trigger until a new session starts). -/
theorem c6_monk_failure (tasks : List Task) (p : ProfileState) (mm : MonkMode)
    (hm : p.stats.monkMode = some mm) :
    ((mm.isActive = true ∧ 0 < (getSessionStats (some mm) tasks).total ∧
      (getSessionStats (some mm) tasks).rate < minRateOf (some mm)) →
      (monkFailureStep tasks p).stats.monkMode = some { mm with isActive := false } ∧
      (monkFailureStep tasks p).showFailureDialog = true) ∧
    (mm.isActive = false → monkFailureStep tasks p = p) := by
  constructor
  · rintro ⟨hact, htot, hrate⟩
    have hsd : mm.startDate ≠ none := by
      intro hnone
      rw [getSessionStats, hnone] at htot
      simp at htot
    simp only [monkFailureStep, hm]
    rw [if_pos ⟨hact, hsd, htot⟩, if_pos hrate]
    exact ⟨rfl, rfl⟩
  · intro hinact
    simp only [monkFailureStep, hm]
    rw [if_neg (by simp [hinact])]

/-- Witness for C6: an active 7-day protocol whose only session task is an
abandonment (rate 0 < 50) fails and surfaces the dialog. -/
theorem c6_monk_failure_witness :
    (monkFailureStep [delTaskW] pAct).stats.monkMode =
      some { mmSeven with isActive := false } ∧
    (monkFailureStep [delTaskW] pAct).showFailureDialog = true := by
  have hsession : getSessionStats (some mmSeven) [delTaskW] = ⟨1, 0, 0⟩ := by
    simp [getSessionStats, mmSeven, sessionPred, delTaskW, onTimeB, List.filter]
    norm_num [jsRound]
  exact c6_monk_failure [delTaskW] pAct mmSeven rfl |>.1
    ⟨rfl, by rw [hsession]; norm_num, by rw [hsession]; norm_num [minRateOf, mmSeven]⟩

/-! ## C7: monk-mode milestone / completion tick -/

/-- Unlocked milestones are never removed by the forEach loop. -/
theorem unlockAux_mono (e : ℚ) (ms : List Int) :
    ∀ (p : List Int × Bool) (x : Int), x ∈ p.1 → x ∈ (unlockAux e ms p).1 := by
  induction ms with
  | nil =>
    intro p x hx
    exact hx
  | cons d rest ih =>
    intro p x hx
    rw [unlockAux]
    refine ih (unlockStep e p d) x ?_
    rw [unlockStep]
    split_ifs with h
    · exact List.mem_append_left _ hx
    · exact hx

/-- Every milestone in the traversed list whose duration has been reached is
in the resulting unlocked list. -/
theorem unlockAux_adds (e : ℚ) (ms : List Int) :
    ∀ (p : List Int × Bool) (d : Int), d ∈ ms → (d : ℚ) ≤ e →
      d ∈ (unlockAux e ms p).1 := by
  induction ms with
  | nil =>
    intro p d hd
    exact absurd hd (List.not_mem_nil d)
  | cons m rest ih =>
    intro p d hd hde
    rcases List.mem_cons.mp hd with hdm | hdr
    · subst hdm
      rw [unlockAux]
      refine unlockAux_mono e rest (unlockStep e p d) d ?_
      rw [unlockStep]
      split_ifs with h
      · exact List.mem_append_right _ (List.mem_singleton_self d)
      · rcases not_and_or.mp h with h1 | h1
        · exact absurd hde h1
        · exact not_not.mp h1
    · rw [unlockAux]
      exact ih (unlockStep e p m) d hdr hde

/-- The update flag never resets inside the forEach loop. -/
theorem unlockAux_flag_mono (e : ℚ) (ms : List Int) :
    ∀ p : List Int × Bool, p.2 = true → (unlockAux e ms p).2 = true := by
  induction ms with
  | nil =>
    intro p hp
    exact hp
  | cons d rest ih =>
    intro p hp
    rw [unlockAux]
    refine ih (unlockStep e p d) ?_
    rw [unlockStep]
    split_ifs with h
    · rfl
    · exact hp

/-- When the loop reports no update needed, it changed nothing. -/
theorem unlockAux_of_flag_false (e : ℚ) (ms : List Int) :
    ∀ p : List Int × Bool, (unlockAux e ms p).2 = false → unlockAux e ms p = p := by
  induction ms with
  | nil =>
    intro p _
    rfl
  | cons d rest ih =>
    intro p hp
    rw [unlockAux] at hp ⊢
    have hq : (unlockStep e p d).2 = false := by
      cases hqc : (unlockStep e p d).2
      · rfl
      · rw [unlockAux_flag_mono e rest _ hqc] at hp
        simp at hp
    have hqp : unlockStep e p d = p := by
      rw [unlockStep] at hq ⊢
      by_cases h : (d : ℚ) ≤ e ∧ d ∉ p.1
      · rw [if_pos h] at hq
        simp at hq
      · rw [if_neg h]
    rw [ih (unlockStep e p d) hp, hqp]

/-- C7: while Monk Mode is active with a start date, a clock tick at `now`
unlocks every milestone duration already reached by the elapsed days
|now - start| / 86400000 (keeping all previously unlocked ones), and once the
elapsed days reach the protocol's total days it deactivates Monk Mode while
keeping the unlocks and surfaces the completion notice. -/
theorem c7_monk_milestones (now : Int) (s : UserStats) (mm : MonkMode) (start : Int)
    (hm : s.monkMode = some mm) (ha : mm.isActive = true) (hs : mm.startDate = some start) :
    (∀ d ∈ MONK_MILESTONES, (d : ℚ) ≤ ((|now - start| : Int) : ℚ) / 86400000 →
      d ∈ (monkTick now s).1.unlockedMonkModes) ∧
    (∀ x ∈ s.unlockedMonkModes, x ∈ (monkTick now s).1.unlockedMonkModes) ∧
    ((mm.totalDays : ℚ) ≤ ((|now - start| : Int) : ℚ) / 86400000 →
      (monkTick now s).1.monkMode = some { mm with isActive := false } ∧
      (monkTick now s).2 = true) := by
  simp only [monkTick, hm, hs]
  rw [if_pos ha]
  set e : ℚ := ((|now - start| : Int) : ℚ) / 86400000 with he
  set r := unlockAux e MONK_MILESTONES (s.unlockedMonkModes, false) with hr
  by_cases hdone : (mm.totalDays : ℚ) ≤ e
  · rw [if_pos hdone]
    refine ⟨?_, ?_, fun _ => ⟨rfl, rfl⟩⟩
    · intro d hd hde
      exact unlockAux_adds e MONK_MILESTONES _ d hd hde
    · intro x hx
      exact unlockAux_mono e MONK_MILESTONES _ x hx
  · rw [if_neg hdone]
    by_cases hupd : r.2 = true
    · rw [if_pos hupd]
      refine ⟨?_, ?_, fun hc => absurd hc hdone⟩
      · intro d hd hde
        exact unlockAux_adds e MONK_MILESTONES _ d hd hde
      · intro x hx
        exact unlockAux_mono e MONK_MILESTONES _ x hx
    · rw [if_neg hupd]
      have hfix := unlockAux_of_flag_false e MONK_MILESTONES
        (s.unlockedMonkModes, false) (Bool.not_eq_true _ |>.mp hupd)
      refine ⟨?_, fun x hx => hx, fun hc => absurd hc hdone⟩
      intro d hd hde
      have := unlockAux_adds e MONK_MILESTONES (s.unlockedMonkModes, false) d hd hde
      rw [← hr] at this
      rw [hr, hfix] at this
      exact this

/-- Witness for C7: the 7-day protocol started at epoch 0, ticked exactly 7
days later, ends inactive with milestone 7 unlocked and the completion notice
surfaced. -/
theorem c7_monk_milestones_witness :
    7 ∈ (monkTick 604800000 sevenStats).1.unlockedMonkModes ∧
    (monkTick 604800000 sevenStats).1.monkMode = some { mmSeven with isActive := false } ∧
    (monkTick 604800000 sevenStats).2 = true := by
  have h := c7_monk_milestones 604800000 sevenStats mmSeven 0 rfl rfl rfl
  have he : ((7 : Int) : ℚ) ≤ ((|(604800000 : Int) - 0| : Int) : ℚ) / 86400000 := by
    norm_num
  refine ⟨h.1 7 (by decide) he, (h.2.2 ?_).1, (h.2.2 ?_).2⟩ <;>
  · show ((mmSeven.totalDays : Int) : ℚ) ≤ ((|(604800000 : Int) - 0| : Int) : ℚ) / 86400000
    norm_num [mmSeven]

/-! ## C8: breach two-step confirmation -/

/-- C8: from a quiescent active state, a first breach click arms the 3-second
window without deactivating Monk Mode; a second click strictly inside the
window deactivates it; if instead the window elapses, the armed flag
auto-expires, Monk Mode stays active, and a later click merely re-arms. -/
theorem c8_breach_confirmation (st : BreachState) (t1 : Int)
    (hc : st.confirmBreach = false) (ha : st.armExpiry = none) (hm : st.monkActive = true) :
    (breachClick t1 st).monkActive = true ∧
    (breachClick t1 st).confirmBreach = true ∧
    (breachClick t1 st).armExpiry = some (t1 + 3000) ∧
    (∀ t2, t2 < t1 + 3000 → (breachClick t2 (breachClick t1 st)).monkActive = false) ∧
    (∀ t, t1 + 3000 ≤ t →
      (expireIfDue t (breachClick t1 st)).confirmBreach = false ∧
      (expireIfDue t (breachClick t1 st)).monkActive = true) ∧
    (∀ t2, t1 + 3000 < t2 → (breachClick t2 (breachClick t1 st)).monkActive = true) := by
  have h1 : breachClick t1 st =
      { st with confirmBreach := true, armExpiry := some (t1 + 3000) } := by
    rw [breachClick, expireIfDue, ha]
    simp [hc]
  refine ⟨by rw [h1, hm], by rw [h1], by rw [h1], ?_, ?_, ?_⟩
  · intro t2 ht2
    have hnd : ¬(t1 + 3000 ≤ t2) := by omega
    rw [h1]
    simp [breachClick, expireIfDue, hnd]
  · intro t ht
    rw [h1]
    constructor <;> simp [expireIfDue, ht, hm]
  · intro t2 ht2
    have hd : t1 + 3000 ≤ t2 := by omega
    rw [h1]
    simp [breachClick, expireIfDue, hd, hm]

/-- Witness for C8: clicking at 0 then at 1000 ms deactivates Monk Mode, while
clicking at 0 and letting 5000 ms pass leaves it armed-expired and active. -/
theorem c8_breach_confirmation_witness :
    (breachClick 0 breachSt0).monkActive = true ∧
    (breachClick 1000 (breachClick 0 breachSt0)).monkActive = false ∧
    (expireIfDue 5000 (breachClick 0 breachSt0)).confirmBreach = false ∧
    (expireIfDue 5000 (breachClick 0 breachSt0)).monkActive = true ∧
    (breachClick 5000 (breachClick 0 breachSt0)).monkActive = true := by
  have h := c8_breach_confirmation breachSt0 0 rfl rfl rfl
  exact ⟨h.1, h.2.2.2.1 1000 (by norm_num),
    (h.2.2.2.2.1 5000 (by norm_num)).1, (h.2.2.2.2.1 5000 (by norm_num)).2,
    h.2.2.2.2.2 5000 (by norm_num)⟩

/-! ## C9: import rejection -/

/-- C9: importing a save document whose `tasks` field is absent surfaces the
error and writes nothing: the task collection, user record and guild record
afterwards are exactly what they were before. -/
theorem c9_import_missing_tasks (doc : SaveDoc) (confirmed : Bool) (st : Store)
    (h : doc.tasks = none) :
    (handleImport doc confirmed st).1.tasks = st.tasks ∧
    (handleImport doc confirmed st).1.user = st.user ∧
    (handleImport doc confirmed st).1.guild = st.guild ∧
    (handleImport doc confirmed st).1 = st ∧
    (handleImport doc confirmed st).2 = true := by
  rw [handleImport, h]
  cases doc.user <;> exact ⟨rfl, rfl, rfl, rfl, rfl⟩

/-- Witness for C9: a document carrying only user data, imported with
confirmation into a populated store, changes nothing and flags the error. -/
theorem c9_import_missing_tasks_witness :
    (handleImport noTasksDoc true someStore).1 = someStore ∧
    (handleImport noTasksDoc true someStore).2 = true :=
  ⟨(c9_import_missing_tasks noTasksDoc true someStore rfl).2.2.2.1,
   (c9_import_missing_tasks noTasksDoc true someStore rfl).2.2.2.2⟩

/-! ## C10: abandon (soft delete) frame -/

/-- C10: abandoning a task id maps the collection pointwise (so no task is
removed and the length is preserved), leaves every non-matching task
unchanged, and on the matching task sets `deleted`, stamps `completedAt` with
the deletion time and stops the timer while leaving id, title, description,
exp, priority, timeSpent and the completed flag unchanged; the stamped task
falls into any Monk-Mode session started before the deletion time and into the
daily bucket containing that time. -/
theorem c10_abandon_frame (now : Int) (target : String) (ts : List Task) :
    confirmDelete now target ts = ts.map (delMark now target) ∧
    (confirmDelete now target ts).length = ts.length ∧
    (∀ t : Task, t.id ≠ target → delMark now target t = t) ∧
    (∀ t : Task, t.id = target →
      (delMark now target t).deleted = true ∧
      (delMark now target t).completedAt = some now ∧
      (delMark now target t).isRunning = false ∧
      (delMark now target t).lastUpdated = none ∧
      (delMark now target t).id = t.id ∧
      (delMark now target t).title = t.title ∧
      (delMark now target t).description = t.description ∧
      (delMark now target t).exp = t.exp ∧
      (delMark now target t).priority = t.priority ∧
      (delMark now target t).timeSpent = t.timeSpent ∧
      (delMark now target t).completed = t.completed ∧
      (∀ s : Int, s < now → sessionPred s (delMark now target t) = true) ∧
      (∀ a b : Int, a ≤ now → now ≤ b → dayPred a b (delMark now target t) = true)) := by
  refine ⟨rfl, List.length_map ts _, ?_, ?_⟩
  · intro t ht
    rw [delMark, if_neg ht]
  · intro t ht
    rw [delMark, if_pos ht]
    refine ⟨rfl, rfl, rfl, rfl, rfl, rfl, rfl, rfl, rfl, rfl, rfl, ?_, ?_⟩
    · intro s hs
      simp [sessionPred, hs]
    · intro a b hab hnb
      simp [dayPred, hab, hnb]

/-- Witness for C10: abandoning "x" at time 100 in a two-task list keeps both
tasks, leaves "y" untouched, marks "x" deleted with `completedAt = 100`, keeps
its other fields, and buckets it into a session started at time 50 and into
the day [0, 1000]. -/
theorem c10_abandon_frame_witness :
    (confirmDelete 100 "x" [taskX, taskY]).length = 2 ∧
    delMark 100 "x" taskY = taskY ∧
    (delMark 100 "x" taskX).deleted = true ∧
    (delMark 100 "x" taskX).completedAt = some 100 ∧
    (delMark 100 "x" taskX).exp = taskX.exp ∧
    (delMark 100 "x" taskX).timeSpent = taskX.timeSpent ∧
    sessionPred 50 (delMark 100 "x" taskX) = true ∧
    dayPred 0 1000 (delMark 100 "x" taskX) = true := by
  have h := c10_abandon_frame 100 "x" [taskX, taskY]
  have hx := h.2.2.2 taskX rfl
  exact ⟨h.2.1, h.2.2.1 taskY (by decide), hx.1, hx.2.1, hx.2.2.2.2.2.2.2.1,
    hx.2.2.2.2.2.2.2.2.2.1, hx.2.2.2.2.2.2.2.2.2.2.2.1 50 (by norm_num),
    hx.2.2.2.2.2.2.2.2.2.2.2.2 0 1000 (by norm_num) (by norm_num)⟩

end TQ
